import Mathlib

/-!
Shallow embedding of the risk-settlement primitives of `kani-solana`
(`src/risk.rs` and `src/math.rs`).

Machine integers are modelled as `Nat` (for `u128`/`u64`/`u8`/`u16`) and
`Int` (for `i128`); domain restrictions to the machine ranges appear as
hypotheses on the theorems.  Rust operations that can panic (plain `+`,
`-`, `*`, `/`, `%` and `abs`/unary negation on `i128`) additionally get a
`_checked` model returning `Option`, where `none` marks the panic; the
totality claims are stated about those models.
-/

set_option maxRecDepth 1000000

namespace KaniSolana

/-- `u128::MAX`. -/
def U128MAX : Nat := 2 ^ 128 - 1

/-- `i128::MAX` as a natural number. -/
def I128MAXn : Nat := 2 ^ 127 - 1

/-- `i128::MIN`. -/
def I128MIN : Int := -(2 ^ 127)

/-- `u128::saturating_add`. -/
def saturating_add (a b : Nat) : Nat := min (a + b) U128MAX

/-- `u128::saturating_sub` (on `Nat`, truncated subtraction is exactly this). -/
def saturating_sub (a b : Nat) : Nat := a - b

/-- `u128::checked_mul`: `some` of the product when it fits in `u128`. -/
def checked_mul (a b : Nat) : Option Nat :=
  if a * b ≤ U128MAX then some (a * b) else none

/-- `src/risk.rs` `haircut_ratio`. -/
def haircut_ratio (vault principal_total insurance pnl_pos_total : Nat) :
    Nat × Nat :=
  let owed := saturating_add principal_total insurance
  let residual := saturating_sub vault owed
  if pnl_pos_total = 0 then (1, 1)
  else (min residual pnl_pos_total, pnl_pos_total)

/-- `src/risk.rs` `effective_pnl`. -/
def effective_pnl (pnl_i : Int) (h_num h_den : Nat) : Nat :=
  let pos : Nat := (max pnl_i 0).toNat
  if pos = 0 ∨ h_den = 0 then 0
  else
    let hn := min h_num h_den
    if hn = h_den then pos
    else
      match checked_mul pos hn with
      | some prod => prod / h_den
      | none =>
          let q := pos / h_den
          let r := pos % h_den
          let head := q * hn
          let tail := ((checked_mul r hn).map (fun x => x / h_den)).getD 0
          head + tail

/-- `src/risk.rs` `warmup_slope`. -/
def warmup_slope (gross_profit elapsed warmup_period : Nat) : Nat :=
  if warmup_period = 0 ∨ warmup_period ≤ elapsed then gross_profit
  else
    let q := gross_profit / warmup_period
    let r := gross_profit % warmup_period
    q * elapsed + r * elapsed / warmup_period

/-- `src/risk.rs` `fee_debt_sweep`. -/
def fee_debt_sweep (fee_debt available : Nat) : Nat × Nat :=
  let swept := min fee_debt available
  (swept, fee_debt - swept)

/-- `src/risk.rs` `funding_payment`. -/
def funding_payment (position : Nat) (rate_num : Int) (rate_den : Nat)
    (is_long : Bool) : Int :=
  if position = 0 ∨ rate_num = 0 ∨ rate_den = 0 then 0
  else
    let abs_num : Nat :=
      if rate_num = I128MIN then I128MAXn + 1 else rate_num.natAbs
    let magnitude : Int :=
      match checked_mul position abs_num with
      | some prod =>
          let mag_u128 := prod / rate_den
          if I128MAXn < mag_u128 then (I128MAXn : Int) else (mag_u128 : Int)
      | none => (I128MAXn : Int)
    let raw := if rate_num < 0 then -magnitude else magnitude
    if is_long then raw else -raw

/-- `src/risk.rs` `loss_writeoff`. -/
def loss_writeoff (negative_equity insurance : Nat) : Nat × Nat :=
  let writeoff := min negative_equity insurance
  (writeoff, insurance - writeoff)

/-- The accumulation loop of `src/math.rs` `ceiling_weighted_average`:
returns `(weighted_sum, total_weight)` given the starting accumulators. -/
def cwa_sums : List (Nat × Nat) → Nat → Nat → Nat × Nat
  | [], ws, tw => (ws, tw)
  | p :: rest, ws, tw => cwa_sums rest (ws + p.1 * p.2) (tw + p.2)

/-- `src/math.rs` `ceiling_weighted_average`. -/
def ceiling_weighted_average (pairs : List (Nat × Nat)) (cap : Nat) : Nat :=
  let s := cwa_sums pairs 0 0
  let weighted_sum := s.1
  let total_weight := s.2
  if total_weight = 0 then 0
  else min ((weighted_sum + total_weight - 1) / total_weight) cap

/-!
Panic models.  Each Rust arithmetic operation that can panic is mirrored by
an `Option`-valued operation returning `none` exactly when the Rust
operation would panic (debug overflow check, division by zero, `abs` or
unary negation at `i128::MIN`).  The `_checked` function models repeat the
source line by line through these operations.
-/

/-- Plain `u128` addition; panics (is `none`) on overflow. -/
def add_u128 (a b : Nat) : Option Nat :=
  if a + b ≤ U128MAX then some (a + b) else none

/-- Plain `u128` subtraction; panics on underflow. -/
def sub_u128 (a b : Nat) : Option Nat :=
  if b ≤ a then some (a - b) else none

/-- Plain `u128` multiplication; panics on overflow. -/
def mul_u128 (a b : Nat) : Option Nat :=
  if a * b ≤ U128MAX then some (a * b) else none

/-- Plain `u128` division; panics on a zero divisor. -/
def div_u128 (a b : Nat) : Option Nat :=
  if b = 0 then none else some (a / b)

/-- Plain `u128` remainder; panics on a zero divisor. -/
def rem_u128 (a b : Nat) : Option Nat :=
  if b = 0 then none else some (a % b)

/-- `i128::abs` followed by `as u128`; panics at `i128::MIN`. -/
def abs_i128 (a : Int) : Option Nat :=
  if a = I128MIN then none else some a.natAbs

/-- `i128` unary negation; panics at `i128::MIN`. -/
def neg_i128 (a : Int) : Option Int :=
  if a = I128MIN then none else some (-a)

/-- Panic model of `haircut_ratio` (saturating operations never panic). -/
def haircut_ratio_checked (vault principal_total insurance pnl_pos_total : Nat) :
    Option (Nat × Nat) :=
  let owed := saturating_add principal_total insurance
  let residual := saturating_sub vault owed
  if pnl_pos_total = 0 then some (1, 1)
  else some (min residual pnl_pos_total, pnl_pos_total)

/-- Panic model of `effective_pnl`. -/
def effective_pnl_checked (pnl_i : Int) (h_num h_den : Nat) : Option Nat :=
  let pos : Nat := (max pnl_i 0).toNat
  if pos = 0 ∨ h_den = 0 then some 0
  else
    let hn := min h_num h_den
    if hn = h_den then some pos
    else
      match checked_mul pos hn with
      | some prod => div_u128 prod h_den
      | none => do
          let q ← div_u128 pos h_den
          let r ← rem_u128 pos h_den
          let head ← mul_u128 q hn
          let tail ← match checked_mul r hn with
            | some x => div_u128 x h_den
            | none => some 0
          add_u128 head tail

/-- Panic model of `warmup_slope`. -/
def warmup_slope_checked (gross_profit elapsed warmup_period : Nat) : Option Nat :=
  if warmup_period = 0 ∨ warmup_period ≤ elapsed then some gross_profit
  else do
    let q ← div_u128 gross_profit warmup_period
    let r ← rem_u128 gross_profit warmup_period
    let a ← mul_u128 q elapsed
    let b ← mul_u128 r elapsed
    let c ← div_u128 b warmup_period
    add_u128 a c

/-- Panic model of `fee_debt_sweep`. -/
def fee_debt_sweep_checked (fee_debt available : Nat) : Option (Nat × Nat) := do
  let swept := min fee_debt available
  let rest ← sub_u128 fee_debt swept
  some (swept, rest)

/-- Panic model of `funding_payment`. -/
def funding_payment_checked (position : Nat) (rate_num : Int) (rate_den : Nat)
    (is_long : Bool) : Option Int :=
  if position = 0 ∨ rate_num = 0 ∨ rate_den = 0 then some 0
  else do
    let abs_num ←
      if rate_num = I128MIN then add_u128 I128MAXn 1 else abs_i128 rate_num
    let magnitude : Int ←
      match checked_mul position abs_num with
      | some prod => do
          let mag_u128 ← div_u128 prod rate_den
          some (if I128MAXn < mag_u128 then (I128MAXn : Int) else (mag_u128 : Int))
      | none => some ((I128MAXn : Nat) : Int)
    let raw ← if rate_num < 0 then neg_i128 magnitude else some magnitude
    if is_long then some raw else neg_i128 raw

/-- Panic model of `loss_writeoff`. -/
def loss_writeoff_checked (negative_equity insurance : Nat) : Option (Nat × Nat) := do
  let writeoff := min negative_equity insurance
  let rest ← sub_u128 insurance writeoff
  some (writeoff, rest)

/-- Panic model of the accumulation loop of `ceiling_weighted_average`. -/
def cwa_sums_checked : List (Nat × Nat) → Nat → Nat → Option (Nat × Nat)
  | [], ws, tw => some (ws, tw)
  | p :: rest, ws, tw => do
      let t ← mul_u128 p.1 p.2
      let ws2 ← add_u128 ws t
      let tw2 ← add_u128 tw p.2
      cwa_sums_checked rest ws2 tw2

/-- Panic model of `ceiling_weighted_average`. -/
def ceiling_weighted_average_checked (pairs : List (Nat × Nat)) (cap : Nat) :
    Option Nat := do
  let s ← cwa_sums_checked pairs 0 0
  if s.2 = 0 then some 0
  else do
    let t1 ← add_u128 s.1 s.2
    let t2 ← sub_u128 t1 1
    let c ← div_u128 t2 s.2
    some (min c cap)

/-!  Helper lemmas. -/

theorem checked_mul_eq_some {a b c : Nat} (h : checked_mul a b = some c) :
    c = a * b ∧ a * b ≤ U128MAX := by
  unfold checked_mul at h
  split at h
  · exact ⟨(Option.some_inj.mp h).symm, by assumption⟩
  · exact absurd h (by simp)

theorem checked_mul_eq_none {a b : Nat} (h : checked_mul a b = none) :
    U128MAX < a * b := by
  unfold checked_mul at h
  split at h
  · exact absurd h (by simp)
  · omega

/-- Scaling by a fraction `hn / h_den ≤ 1` does not increase a value. -/
theorem mul_div_le_self (pos hn h_den : Nat) (hle : hn ≤ h_den) (hd : h_den ≠ 0) :
    pos * hn / h_den ≤ pos := by
  have h1 : pos * hn ≤ pos * h_den := Nat.mul_le_mul_left pos hle
  calc pos * hn / h_den ≤ pos * h_den / h_den := Nat.div_le_div_right h1
    _ = pos := Nat.mul_div_cancel _ (Nat.pos_of_ne_zero hd)

/-- The warmed amount in the partial-warmup branch is at most the profit. -/
theorem warmup_raw_le (gp e p : Nat) (hpe : e ≤ p) (hp : p ≠ 0) :
    gp / p * e + gp % p * e / p ≤ gp := by
  have h1 : gp / p * e ≤ gp / p * p := Nat.mul_le_mul_left _ hpe
  have h2 : gp % p * e / p ≤ gp % p := by
    have := Nat.mul_le_mul_left (gp % p) hpe
    calc gp % p * e / p ≤ gp % p * p / p := Nat.div_le_div_right this
      _ = gp % p := Nat.mul_div_cancel _ (Nat.pos_of_ne_zero hp)
  have h3 : gp / p * p + gp % p = gp := Nat.div_add_mod' gp p
  omega

/-- `warmup_slope` never exceeds the gross profit (over all of `Nat`). -/
theorem warmup_slope_le (gross_profit elapsed warmup_period : Nat) :
    warmup_slope gross_profit elapsed warmup_period ≤ gross_profit := by
  unfold warmup_slope
  split
  · exact le_refl _
  · rename_i h
    push_neg at h
    exact warmup_raw_le _ _ _ (le_of_lt h.2) h.1

/-- The quotient/remainder decomposition of `effective_pnl` never exceeds
the undiscounted positive PnL, even when the tail is dropped. -/
theorem decomp_le (pos hn h_den : Nat) (hle : hn ≤ h_den) (hd : h_den ≠ 0) :
    pos / h_den * hn + ((checked_mul (pos % h_den) hn).map (fun x => x / h_den)).getD 0
      ≤ pos := by
  have htail :
      ((checked_mul (pos % h_den) hn).map (fun x => x / h_den)).getD 0
        ≤ pos % h_den * hn / h_den := by
    unfold checked_mul
    split
    · simp
    · simp
  have h1 : pos / h_den * hn ≤ pos / h_den * h_den := Nat.mul_le_mul_left _ hle
  have h2 : pos % h_den * hn / h_den ≤ pos % h_den :=
    mul_div_le_self _ _ _ hle hd
  have h3 : pos / h_den * h_den + pos % h_den = pos := Nat.div_add_mod' pos h_den
  omega

/-- When the tail product fits in `u128`, the decomposition is exact. -/
theorem decomp_exact (pos hn h_den : Nat) (hd : h_den ≠ 0)
    (hfit : pos % h_den * hn ≤ U128MAX) :
    pos / h_den * hn + ((checked_mul (pos % h_den) hn).map (fun x => x / h_den)).getD 0
      = pos * hn / h_den := by
  have hpos : 0 < h_den := Nat.pos_of_ne_zero hd
  rw [checked_mul, if_pos hfit]
  simp only [Option.map_some', Option.getD_some]
  conv_rhs => rw [← Nat.div_add_mod pos h_den]
  rw [Nat.add_mul, Nat.mul_assoc, Nat.mul_add_div hpos]

/-!  C3: `haircut_ratio` refines the spec and satisfies its postconditions. -/

/-- Modelled from the spec text of section 4.3: `owed = principalTotal +
insurance` (saturating); `residual = max(0, vault - owed)`; `(1,1)` when
`pnlPosTotal == 0`, else `(min(residual, pnlPosTotal), pnlPosTotal)`. -/
def haircut_ratio_spec (vault principal_total insurance pnl_pos_total : Nat) :
    Nat × Nat :=
  let owed := min (principal_total + insurance) U128MAX
  let residual := max 0 (vault - owed)
  if pnl_pos_total = 0 then (1, 1)
  else (min residual pnl_pos_total, pnl_pos_total)

/-- C3: for every input in the `u128` domain, `haircut_ratio` agrees with the
reference definition taken from the spec, its denominator is nonzero, and
its numerator never exceeds its denominator. -/
theorem haircut_ratio_correct (vault principal_total insurance pnl_pos_total : Nat)
    (hv : vault ≤ U128MAX) (hp : principal_total ≤ U128MAX)
    (hi : insurance ≤ U128MAX) (ht : pnl_pos_total ≤ U128MAX) :
    haircut_ratio vault principal_total insurance pnl_pos_total
      = haircut_ratio_spec vault principal_total insurance pnl_pos_total
    ∧ (haircut_ratio vault principal_total insurance pnl_pos_total).2 ≠ 0
    ∧ (haircut_ratio vault principal_total insurance pnl_pos_total).1
        ≤ (haircut_ratio vault principal_total insurance pnl_pos_total).2 := by
  refine ⟨?_, ?_, ?_⟩
  · simp [haircut_ratio, haircut_ratio_spec, saturating_add, saturating_sub]
  · unfold haircut_ratio
    split
    · simp
    · rename_i h
      simpa using h
  · unfold haircut_ratio
    split
    · simp
    · simpa using min_le_right _ _

/-- Witness for C3 at the spec's concrete scenario
`haircut_ratio 100 60 10 50 = (30, 50)`. -/
theorem haircut_ratio_correct_witness :
    haircut_ratio 100 60 10 50 = haircut_ratio_spec 100 60 10 50
    ∧ (haircut_ratio 100 60 10 50).2 ≠ 0
    ∧ (haircut_ratio 100 60 10 50).1 ≤ (haircut_ratio 100 60 10 50).2 :=
  haircut_ratio_correct 100 60 10 50 (by decide) (by decide) (by decide) (by decide)

/-!  C7: warmup is bounded by the profit and complete after the period. -/

/-- C7: for every `u128` profit and `u64` times, the warmed amount never
exceeds the gross profit, and equals it whenever `elapsed ≥ warmup_period`
(which covers every input with `warmup_period = 0`). -/
theorem warmup_slope_bounded (gross_profit elapsed warmup_period : Nat)
    (hg : gross_profit ≤ U128MAX) (he : elapsed ≤ 2 ^ 64 - 1)
    (hp : warmup_period ≤ 2 ^ 64 - 1) :
    warmup_slope gross_profit elapsed warmup_period ≤ gross_profit
    ∧ (warmup_period ≤ elapsed →
        warmup_slope gross_profit elapsed warmup_period = gross_profit) := by
  refine ⟨warmup_slope_le _ _ _, fun h => ?_⟩
  unfold warmup_slope
  rw [if_pos (Or.inr h)]

/-- Witness for C7 at the spec scenario plus a fully-warmed input. -/
theorem warmup_slope_bounded_witness :
    warmup_slope 1000 150 100 ≤ 1000
    ∧ (100 ≤ 150 → warmup_slope 1000 150 100 = 1000) :=
  warmup_slope_bounded 1000 150 100 (by decide) (by decide) (by decide)

/-!  C9: loss write-off conserves the insurance fund. -/

/-- C9: the write-off and the new insurance sum back to the old insurance,
the write-off never exceeds the loss, and the remaining insurance is
non-increasing in the size of the loss. -/
theorem loss_writeoff_correct (negative_equity insurance neg2 : Nat)
    (h1 : negative_equity ≤ U128MAX) (h2 : insurance ≤ U128MAX)
    (h3 : neg2 ≤ U128MAX) (h12 : negative_equity ≤ neg2) :
    (loss_writeoff negative_equity insurance).1
        + (loss_writeoff negative_equity insurance).2 = insurance
    ∧ (loss_writeoff negative_equity insurance).1 ≤ negative_equity
    ∧ (loss_writeoff neg2 insurance).2 ≤ (loss_writeoff negative_equity insurance).2 := by
  have ha : min negative_equity insurance ≤ min neg2 insurance :=
    min_le_min h12 (le_refl insurance)
  simp only [loss_writeoff]
  omega

/-- Witness for C9 at a concrete partially-covered loss. -/
theorem loss_writeoff_correct_witness :
    (loss_writeoff 30 100).1 + (loss_writeoff 30 100).2 = 100
    ∧ (loss_writeoff 30 100).1 ≤ 30
    ∧ (loss_writeoff 120 100).2 ≤ (loss_writeoff 30 100).2 :=
  loss_writeoff_correct 30 100 120 (by decide) (by decide) (by decide) (by decide)

/-!  C6: warmup is monotone in the elapsed time. -/

/-- C6: for every `u128` profit and `u64` period, the warmed amount is
monotonically non-decreasing in `elapsed`. -/
theorem warmup_slope_monotone (gross_profit t1 t2 warmup_period : Nat)
    (hg : gross_profit ≤ U128MAX) (h1 : t1 ≤ 2 ^ 64 - 1) (h2 : t2 ≤ 2 ^ 64 - 1)
    (hp : warmup_period ≤ 2 ^ 64 - 1) (h12 : t1 ≤ t2) :
    warmup_slope gross_profit t1 warmup_period
      ≤ warmup_slope gross_profit t2 warmup_period := by
  unfold warmup_slope
  split_ifs with hA hB hB
  · exact le_refl _
  · exfalso; omega
  · push_neg at hA
    exact warmup_raw_le _ _ _ (le_of_lt hA.2) hA.1
  · exact Nat.add_le_add (Nat.mul_le_mul_left _ h12)
      (Nat.div_le_div_right (Nat.mul_le_mul_left _ h12))

/-- Witness for C6 at the spec scenario `warmup_slope 1000 25 100 = 250`. -/
theorem warmup_slope_monotone_witness :
    warmup_slope 1000 25 100 ≤ warmup_slope 1000 75 100 :=
  warmup_slope_monotone 1000 25 75 100 (by decide) (by decide) (by decide)
    (by decide) (by decide)

/-!  C5: funding payment long/short antisymmetry and zero cases. -/

/-- C5: over the full `u128`/`i128` domains (including `rate_num = i128::MIN`)
the long payment is the exact negation of the short payment, and the payment
is zero whenever the position, the rate numerator or the rate denominator is
zero. -/
theorem funding_payment_symmetry (position : Nat) (rate_num : Int) (rate_den : Nat)
    (is_long : Bool)
    (hp : position ≤ U128MAX) (hn1 : I128MIN ≤ rate_num)
    (hn2 : rate_num ≤ ((I128MAXn : Nat) : Int)) (hd : rate_den ≤ U128MAX) :
    funding_payment position rate_num rate_den true
      = -funding_payment position rate_num rate_den false
    ∧ ((position = 0 ∨ rate_num = 0 ∨ rate_den = 0) →
        funding_payment position rate_num rate_den is_long = 0) := by
  constructor
  · by_cases h : position = 0 ∨ rate_num = 0 ∨ rate_den = 0
    · simp [funding_payment, h]
    · simp [funding_payment, h]
  · intro h
    simp [funding_payment, h]

/-- Witness for C5 at the spec scenario (`rate_num = -5`) and at
`rate_num = i128::MIN`. -/
theorem funding_payment_symmetry_witness :
    (funding_payment 1000 (-5) 100 true = -funding_payment 1000 (-5) 100 false
      ∧ ((1000 : Nat) = 0 ∨ (-5 : Int) = 0 ∨ (100 : Nat) = 0 →
          funding_payment 1000 (-5) 100 true = 0))
    ∧ funding_payment 7 I128MIN 3 true = -funding_payment 7 I128MIN 3 false :=
  ⟨funding_payment_symmetry 1000 (-5) 100 true (by decide) (by decide)
      (by decide) (by decide),
    (funding_payment_symmetry 7 I128MIN 3 true (by decide) (by decide)
      (by decide) (by decide)).1⟩

/-!  C8: effective PnL is bounded by the positive part of the PnL. -/

/-- `effective_pnl` never exceeds the undiscounted positive PnL, with no
hypothesis at all on the ratio. -/
theorem effective_pnl_le (pnl_i : Int) (h_num h_den : Nat) :
    effective_pnl pnl_i h_num h_den ≤ (max pnl_i 0).toNat := by
  simp only [effective_pnl]
  split
  · exact Nat.zero_le _
  · rename_i hcond
    push_neg at hcond
    split
    · exact le_refl _
    · split
      · rename_i prod hprod
        obtain ⟨hpe, _⟩ := checked_mul_eq_some hprod
        rw [hpe]
        exact mul_div_le_self _ _ _ (min_le_right _ _) hcond.2
      · exact decomp_le _ _ _ (min_le_right _ _) hcond.2

/-- C8: for every `i128` PnL and every `u128` ratio (including a zero
denominator and a numerator above the denominator), the effective PnL is at
most `max(pnl, 0)`, and non-positive PnL yields 0. -/
theorem effective_pnl_bounded (pnl_i : Int) (h_num h_den : Nat)
    (hlo : I128MIN ≤ pnl_i) (hhi : pnl_i ≤ ((I128MAXn : Nat) : Int))
    (hn : h_num ≤ U128MAX) (hd : h_den ≤ U128MAX) :
    effective_pnl pnl_i h_num h_den ≤ (max pnl_i 0).toNat
    ∧ (pnl_i ≤ 0 → effective_pnl pnl_i h_num h_den = 0) := by
  refine ⟨effective_pnl_le _ _ _, fun h => ?_⟩
  have hz : (max pnl_i 0).toNat = 0 := by
    rw [Int.toNat_eq_zero]; exact max_le h (le_refl 0)
  simp [effective_pnl, hz]

/-- Witness for C8 at a malformed ratio (`h_num > h_den`) and at a loss. -/
theorem effective_pnl_bounded_witness :
    (effective_pnl 1000 70 50 ≤ (max (1000 : Int) 0).toNat
      ∧ ((1000 : Int) ≤ 0 → effective_pnl 1000 70 50 = 0))
    ∧ effective_pnl (-25) 30 50 = 0 :=
  ⟨effective_pnl_bounded 1000 70 50 (by decide) (by decide) (by decide) (by decide),
    (effective_pnl_bounded (-25) 30 50 (by decide) (by decide) (by decide)
      (by decide)).2 (by decide)⟩

/-!  C1: exactness of `effective_pnl`.

The claim as frozen is false: when the quotient/remainder decomposition is
taken and the tail product `(pos % h_den) * h_num` itself overflows `u128`,
the code drops the tail (`unwrap_or(0)`), undershooting the exact value.
`effective_pnl_exact_cex` exhibits this at `pnl = i128::MAX`, `h_num = 8`,
`h_den = 2^127`.  With the tail-fit hypothesis added, exactness holds on
both paths. -/

/-- C1 counterexample: the input satisfies the claim's hypotheses
(`h_den > 0`, `h_num ≤ h_den`), yet the code returns `0` while the exact
floor `pos * h_num / h_den` is `7`. -/
theorem effective_pnl_exact_cex :
    0 < (2 : Nat) ^ 127 ∧ (8 : Nat) ≤ 2 ^ 127
    ∧ effective_pnl ((2 : Int) ^ 127 - 1) 8 (2 ^ 127) = 0
    ∧ (max ((2 : Int) ^ 127 - 1) 0).toNat * 8 / 2 ^ 127 = 7 := by
  decide

/-- C1 (amended): under the claim's hypotheses plus the condition that the
tail product `(pos % h_den) * h_num` fits in `u128` (which always holds on
the wide-intermediate path), `effective_pnl` computes the exact
arbitrary-precision floor `pos * h_num / h_den`. -/
theorem effective_pnl_exact (pnl_i : Int) (h_num h_den : Nat)
    (hlo : I128MIN ≤ pnl_i) (hhi : pnl_i ≤ ((I128MAXn : Nat) : Int))
    (hnM : h_num ≤ U128MAX) (hdM : h_den ≤ U128MAX)
    (hd0 : 0 < h_den) (hle : h_num ≤ h_den)
    (hfit : (max pnl_i 0).toNat % h_den * h_num ≤ U128MAX) :
    effective_pnl pnl_i h_num h_den = (max pnl_i 0).toNat * h_num / h_den := by
  have hd' : h_den ≠ 0 := Nat.pos_iff_ne_zero.mp hd0
  have hmin : min h_num h_den = h_num := min_eq_left hle
  simp only [effective_pnl, hmin]
  split
  · rename_i h
    rcases h with h | h
    · rw [h]; simp
    · exact absurd h hd'
  · split
    · rename_i heq
      rw [heq]
      exact (Nat.mul_div_cancel _ hd0).symm
    · split
      · rename_i prod hprod
        obtain ⟨hpe, _⟩ := checked_mul_eq_some hprod
        rw [hpe]
      · exact decomp_exact _ _ _ hd' hfit

/-- Witness for C1 at the spec scenario `effective_pnl 1000 30 50 = 600`. -/
theorem effective_pnl_exact_witness :
    effective_pnl 1000 30 50 = (max (1000 : Int) 0).toNat * 30 / 50 :=
  effective_pnl_exact 1000 30 50 (by decide) (by decide) (by decide) (by decide)
    (by decide) (by decide) (by decide)

/-!  C2: the funding-payment magnitude.

The claim as frozen is false: the code saturates to `i128::MAX` whenever the
intermediate product `position * |rate_num|` overflows `u128`, even when the
exact quotient `position * |rate_num| / rate_den` is small and representable.
`funding_payment_magnitude_cex` exhibits this.  The amended claim keys the
saturation on the product overflowing `u128` or the quotient exceeding
`i128::MAX`. -/

/-- The source's widened absolute value agrees with `Int.natAbs`,
including at `i128::MIN`. -/
theorem funding_abs_eq (rate_num : Int) :
    (if rate_num = I128MIN then I128MAXn + 1 else rate_num.natAbs)
      = rate_num.natAbs := by
  split
  · rename_i h
    rw [h]
    decide
  · rfl

/-- Absolute-value characterization of `funding_payment` away from the zero
guard: the magnitude is the floored quotient capped at `i128::MAX` when the
product fits in `u128`, and `i128::MAX` otherwise. -/
theorem funding_payment_natAbs (position : Nat) (rate_num : Int) (rate_den : Nat)
    (is_long : Bool) (hp0 : position ≠ 0) (hn0 : rate_num ≠ 0) (hd0 : rate_den ≠ 0) :
    (funding_payment position rate_num rate_den is_long).natAbs
      = if position * rate_num.natAbs ≤ U128MAX
        then min (position * rate_num.natAbs / rate_den) I128MAXn
        else I128MAXn := by
  have hcond : ¬(position = 0 ∨ rate_num = 0 ∨ rate_den = 0) := by tauto
  simp only [funding_payment, funding_abs_eq, if_neg hcond]
  have hmag : ∀ mag : Int,
      (if is_long = true then (if rate_num < 0 then -mag else mag)
        else -(if rate_num < 0 then -mag else mag)).natAbs = mag.natAbs := by
    intro mag
    cases is_long <;> by_cases h : rate_num < 0 <;> simp [h, Int.natAbs_neg]
  rw [hmag]
  split
  · rename_i prod hprod
    obtain ⟨hpe, hle⟩ := checked_mul_eq_some hprod
    subst hpe
    rw [if_pos hle]
    split
    · rename_i hlt
      rw [min_eq_right (le_of_lt hlt)]
      simp
    · rename_i hnlt
      push_neg at hnlt
      rw [min_eq_left hnlt]
      exact Int.natAbs_ofNat _
  · rename_i hnone
    have hgt := checked_mul_eq_none hnone
    rw [if_neg (by omega)]
    simp

/-- C2 counterexample: at `position = 2^127`, `rate_num = 2`,
`rate_den = u128::MAX` the exact magnitude is `1` (representable in `i128`),
yet the code returns the saturated value `i128::MAX`. -/
theorem funding_payment_magnitude_cex :
    funding_payment (2 ^ 127) 2 (2 ^ 128 - 1) true = (2 : Int) ^ 127 - 1
    ∧ 2 ^ 127 * (2 : Int).natAbs / (2 ^ 128 - 1) = 1
    ∧ (1 : Nat) ≤ I128MAXn := by
  decide

/-- C2 (amended): for nonzero inputs the funding magnitude is the exact
floor `position * |rate_num| / rate_den` whenever the product
`position * |rate_num|` fits in `u128` and the floor is at most `i128::MAX`,
and saturates to `i128::MAX` whenever the product overflows `u128` or the
floor exceeds `i128::MAX`; this includes `rate_num = i128::MIN`. -/
theorem funding_payment_magnitude (position : Nat) (rate_num : Int) (rate_den : Nat)
    (is_long : Bool) (hp : position ≤ U128MAX) (hn1 : I128MIN ≤ rate_num)
    (hn2 : rate_num ≤ ((I128MAXn : Nat) : Int)) (hd : rate_den ≤ U128MAX)
    (hp0 : position ≠ 0) (hn0 : rate_num ≠ 0) (hd0 : rate_den ≠ 0) :
    (position * rate_num.natAbs ≤ U128MAX
        ∧ position * rate_num.natAbs / rate_den ≤ I128MAXn →
      (funding_payment position rate_num rate_den is_long).natAbs
        = position * rate_num.natAbs / rate_den)
    ∧ (U128MAX < position * rate_num.natAbs
        ∨ I128MAXn < position * rate_num.natAbs / rate_den →
      (funding_payment position rate_num rate_den is_long).natAbs = I128MAXn) := by
  rw [funding_payment_natAbs position rate_num rate_den is_long hp0 hn0 hd0]
  constructor
  · rintro ⟨hA, hB⟩
    rw [if_pos hA, min_eq_left hB]
  · rintro (hA | hB)
    · rw [if_neg (by omega)]
    · split
      · exact min_eq_right (le_of_lt hB)
      · rfl

/-- Witness for C2 at the spec scenario `funding_payment 1000 (-5) 100`. -/
theorem funding_payment_magnitude_witness :
    (1000 * (-5 : Int).natAbs ≤ U128MAX
        ∧ 1000 * (-5 : Int).natAbs / 100 ≤ I128MAXn →
      (funding_payment 1000 (-5) 100 true).natAbs
        = 1000 * (-5 : Int).natAbs / 100)
    ∧ (U128MAX < 1000 * (-5 : Int).natAbs
        ∨ I128MAXn < 1000 * (-5 : Int).natAbs / 100 →
      (funding_payment 1000 (-5) 100 true).natAbs = I128MAXn) :=
  funding_payment_magnitude 1000 (-5) 100 true (by decide) (by decide) (by decide)
    (by decide) (by decide) (by decide) (by decide)

/-!  C4: totality (panic-freedom) of the six settlement functions.
Each `_checked` model returns `some` of the plain model's value on the whole
machine-integer domain: no `+`, `-`, `*`, `/`, `%`, `abs` or negation on any
execution path can panic. -/

theorem haircut_ratio_checked_eq (vault principal_total insurance pnl_pos_total : Nat) :
    haircut_ratio_checked vault principal_total insurance pnl_pos_total
      = some (haircut_ratio vault principal_total insurance pnl_pos_total) := by
  simp only [haircut_ratio_checked, haircut_ratio]
  split <;> rfl

theorem effective_pnl_checked_eq (pnl_i : Int) (h_num h_den : Nat)
    (hpos : (max pnl_i 0).toNat ≤ U128MAX) :
    effective_pnl_checked pnl_i h_num h_den
      = some (effective_pnl pnl_i h_num h_den) := by
  simp only [effective_pnl_checked, effective_pnl]
  split
  · rfl
  · rename_i hcond
    push_neg at hcond
    obtain ⟨hp0, hden0⟩ := hcond
    split
    · rfl
    · rename_i hne
      split
      · rename_i prod hprod
        simp [div_u128, hden0]
      · rename_i hnone
        have hhn : min h_num h_den ≤ h_den := min_le_right _ _
        have hsum := decomp_le ((max pnl_i 0).toNat) (min h_num h_den) h_den hhn hden0
        have hhead : (max pnl_i 0).toNat / h_den * (min h_num h_den) ≤ U128MAX :=
          le_trans (le_trans (Nat.le_add_right _ _) hsum) hpos
        cases hcm : checked_mul ((max pnl_i 0).toNat % h_den) (min h_num h_den) with
        | some x =>
          rw [hcm] at hsum
          simp only [Option.map_some', Option.getD_some] at hsum
          have haddle := le_trans hsum hpos
          simp [div_u128, rem_u128, mul_u128, add_u128, hden0, hhead, hcm, haddle]
        | none =>
          rw [hcm] at hsum
          simp only [Option.map_none', Option.getD_none] at hsum
          have haddle := le_trans hsum hpos
          simp [div_u128, rem_u128, mul_u128, add_u128, hden0, hhead, hcm, haddle]

theorem warmup_slope_checked_eq (gross_profit elapsed warmup_period : Nat)
    (hg : gross_profit ≤ U128MAX) (hp : warmup_period ≤ 2 ^ 64 - 1) :
    warmup_slope_checked gross_profit elapsed warmup_period
      = some (warmup_slope gross_profit elapsed warmup_period) := by
  have hU : U128MAX = 2 ^ 128 - 1 := rfl
  simp only [warmup_slope_checked, warmup_slope]
  split
  · rfl
  · rename_i h
    push_neg at h
    obtain ⟨h0, hlt⟩ := h
    have hqe : gross_profit / warmup_period * elapsed ≤ U128MAX := by
      have h1 : gross_profit / warmup_period * elapsed
          ≤ gross_profit / warmup_period * warmup_period :=
        Nat.mul_le_mul_left _ (le_of_lt hlt)
      have h2 := Nat.div_mul_le_self gross_profit warmup_period
      omega
    have hre : gross_profit % warmup_period * elapsed ≤ U128MAX := by
      have h1 : gross_profit % warmup_period < warmup_period :=
        Nat.mod_lt _ (by omega)
      have h2 : gross_profit % warmup_period * elapsed
          ≤ (2 ^ 64 - 2) * (2 ^ 64 - 2) :=
        Nat.mul_le_mul (by omega) (by omega)
      omega
    have hadd2 : gross_profit / warmup_period * elapsed
        + gross_profit % warmup_period * elapsed / warmup_period ≤ U128MAX :=
      le_trans (warmup_raw_le gross_profit elapsed warmup_period (le_of_lt hlt) h0) hg
    simp [div_u128, rem_u128, mul_u128, add_u128, h0, hqe, hre, hadd2]

theorem fee_debt_sweep_checked_eq (fee_debt available : Nat) :
    fee_debt_sweep_checked fee_debt available
      = some (fee_debt_sweep fee_debt available) := by
  have h := min_le_left fee_debt available
  simp [fee_debt_sweep_checked, fee_debt_sweep, sub_u128, h]

theorem loss_writeoff_checked_eq (negative_equity insurance : Nat) :
    loss_writeoff_checked negative_equity insurance
      = some (loss_writeoff negative_equity insurance) := by
  have h := min_le_right negative_equity insurance
  simp [loss_writeoff_checked, loss_writeoff, sub_u128, h]

/-- Negating a magnitude in `[0, i128::MAX]` never panics, in either
direction. -/
theorem neg_i128_eq_some {m : Int} (h0 : 0 ≤ m)
    (h1 : m ≤ ((I128MAXn : Nat) : Int)) :
    neg_i128 m = some (-m) ∧ neg_i128 (-m) = some m := by
  have hMIN : I128MIN = -(2 ^ 127) := rfl
  have hval : ((I128MAXn : Nat) : Int) = 2 ^ 127 - 1 := by norm_num [I128MAXn]
  constructor
  · rw [neg_i128, if_neg (by omega)]
  · rw [neg_i128, if_neg (by omega), neg_neg]

theorem funding_payment_checked_eq (position : Nat) (rate_num : Int) (rate_den : Nat)
    (is_long : Bool) :
    funding_payment_checked position rate_num rate_den is_long
      = some (funding_payment position rate_num rate_den is_long) := by
  simp only [funding_payment_checked, funding_payment]
  split
  · rfl
  · rename_i hcond
    push_neg at hcond
    obtain ⟨hp0, hn0, hd0⟩ := hcond
    have hadd1 : add_u128 I128MAXn 1 = some (I128MAXn + 1) := by
      rw [add_u128, if_pos (by decide)]
    have hdiv : ∀ x : Nat, div_u128 x rate_den = some (x / rate_den) := by
      intro x; rw [div_u128, if_neg hd0]
    have hM0 : ∀ p : Nat, (0 : Int) ≤
        (if I128MAXn < p then ((I128MAXn : Nat) : Int) else ((p : Nat) : Int)) := by
      intro p; split <;> exact Int.natCast_nonneg _
    have hMle : ∀ p : Nat,
        (if I128MAXn < p then ((I128MAXn : Nat) : Int) else ((p : Nat) : Int))
          ≤ ((I128MAXn : Nat) : Int) := by
      intro p; split
      · exact le_refl _
      · rename_i h
        push_neg at h
        exact_mod_cast h
    by_cases hmin : rate_num = I128MIN
    · have hrneg : rate_num < 0 := by rw [hmin]; decide
      simp only [if_pos hmin, if_pos hrneg, hadd1, Option.bind_eq_bind,
        Option.some_bind]
      cases hcm : checked_mul position (I128MAXn + 1) with
      | some prod =>
        rcases neg_i128_eq_some (hM0 (prod / rate_den)) (hMle (prod / rate_den))
          with ⟨hg1, hg2⟩
        simp only [Int.natCast_div] at hg1 hg2
        cases is_long <;> simp [hdiv, hg1, hg2]
      | none =>
        rcases neg_i128_eq_some (Int.natCast_nonneg I128MAXn) (le_refl _)
          with ⟨hg1, hg2⟩
        cases is_long <;> simp [hg1, hg2]
    · have habs2 : abs_i128 rate_num = some rate_num.natAbs := by
        rw [abs_i128, if_neg hmin]
      simp only [if_neg hmin, habs2, Option.bind_eq_bind, Option.some_bind]
      cases hcm : checked_mul position rate_num.natAbs with
      | some prod =>
        rcases neg_i128_eq_some (hM0 (prod / rate_den)) (hMle (prod / rate_den))
          with ⟨hg1, hg2⟩
        simp only [Int.natCast_div] at hg1 hg2
        cases is_long <;> by_cases hr : rate_num < 0 <;>
          simp [hr, hdiv, hg1, hg2]
      | none =>
        rcases neg_i128_eq_some (Int.natCast_nonneg I128MAXn) (le_refl _)
          with ⟨hg1, hg2⟩
        cases is_long <;> by_cases hr : rate_num < 0 <;>
          simp [hr, hg1, hg2]

/-- C4: all six settlement functions are total over the full domain of their
declared machine-integer argument types: the panic model of each returns
`some` of the plain value, so no execution path panics (no overflow in `+`,
`-`, `*`, no division or remainder by zero, no `abs`/negation overflow). -/
theorem settlement_functions_total
    (vault principal_total insurance pnl_pos_total : Nat)
    (pnl_i : Int) (h_num h_den : Nat)
    (gross_profit elapsed warmup_period : Nat)
    (fee_debt available : Nat)
    (position : Nat) (rate_num : Int) (rate_den : Nat) (is_long : Bool)
    (negative_equity insurance2 : Nat)
    (hv : vault ≤ U128MAX) (hpt : principal_total ≤ U128MAX)
    (hins : insurance ≤ U128MAX) (hppt : pnl_pos_total ≤ U128MAX)
    (hpnl1 : I128MIN ≤ pnl_i) (hpnl2 : pnl_i ≤ ((I128MAXn : Nat) : Int))
    (hhn : h_num ≤ U128MAX) (hhd : h_den ≤ U128MAX)
    (hgp : gross_profit ≤ U128MAX) (hel : elapsed ≤ 2 ^ 64 - 1)
    (hwp : warmup_period ≤ 2 ^ 64 - 1)
    (hfd : fee_debt ≤ U128MAX) (hav : available ≤ U128MAX)
    (hposn : position ≤ U128MAX) (hrn1 : I128MIN ≤ rate_num)
    (hrn2 : rate_num ≤ ((I128MAXn : Nat) : Int)) (hrd : rate_den ≤ U128MAX)
    (hne : negative_equity ≤ U128MAX) (hins2 : insurance2 ≤ U128MAX) :
    haircut_ratio_checked vault principal_total insurance pnl_pos_total
      = some (haircut_ratio vault principal_total insurance pnl_pos_total)
    ∧ effective_pnl_checked pnl_i h_num h_den
      = some (effective_pnl pnl_i h_num h_den)
    ∧ warmup_slope_checked gross_profit elapsed warmup_period
      = some (warmup_slope gross_profit elapsed warmup_period)
    ∧ fee_debt_sweep_checked fee_debt available
      = some (fee_debt_sweep fee_debt available)
    ∧ funding_payment_checked position rate_num rate_den is_long
      = some (funding_payment position rate_num rate_den is_long)
    ∧ loss_writeoff_checked negative_equity insurance2
      = some (loss_writeoff negative_equity insurance2) := by
  refine ⟨haircut_ratio_checked_eq _ _ _ _, ?_,
    warmup_slope_checked_eq _ _ _ hgp hwp, fee_debt_sweep_checked_eq _ _,
    funding_payment_checked_eq _ _ _ _, loss_writeoff_checked_eq _ _⟩
  apply effective_pnl_checked_eq
  have h1 : (max pnl_i 0).toNat ≤ ((I128MAXn : Nat) : Int).toNat :=
    Int.toNat_le_toNat (max_le hpnl2 (Int.natCast_nonneg _))
  have h2 : ((I128MAXn : Nat) : Int).toNat = I128MAXn := Int.toNat_natCast _
  have h3 : I128MAXn ≤ U128MAX := by decide
  omega

/-- Witness for C4 at the spec's concrete scenarios. -/
theorem settlement_functions_total_witness :
    haircut_ratio_checked 100 60 10 50 = some (haircut_ratio 100 60 10 50)
    ∧ effective_pnl_checked 1000 30 50 = some (effective_pnl 1000 30 50)
    ∧ warmup_slope_checked 1000 25 100 = some (warmup_slope 1000 25 100)
    ∧ fee_debt_sweep_checked 70 40 = some (fee_debt_sweep 70 40)
    ∧ funding_payment_checked 1000 (-5) 100 true
      = some (funding_payment 1000 (-5) 100 true)
    ∧ loss_writeoff_checked 30 100 = some (loss_writeoff 30 100) :=
  settlement_functions_total 100 60 10 50 1000 30 50 1000 25 100 70 40
    1000 (-5) 100 true 30 100
    (by decide) (by decide) (by decide) (by decide) (by decide) (by decide)
    (by decide) (by decide) (by decide) (by decide) (by decide) (by decide)
    (by decide) (by decide) (by decide) (by decide) (by decide) (by decide)
    (by decide)

/-!  C10: `ceiling_weighted_average` is capped and guards its division. -/

/-- Accumulator formula for the `ceiling_weighted_average` loop. -/
theorem cwa_sums_eq (pairs : List (Nat × Nat)) (ws tw : Nat) :
    (cwa_sums pairs ws tw).1 = ws + (cwa_sums pairs 0 0).1
    ∧ (cwa_sums pairs ws tw).2 = tw + (cwa_sums pairs 0 0).2 := by
  induction pairs generalizing ws tw with
  | nil => simp [cwa_sums]
  | cons p rest ih =>
    simp only [cwa_sums]
    constructor
    · rw [(ih (ws + p.1 * p.2) (tw + p.2)).1, (ih (0 + p.1 * p.2) (0 + p.2)).1]
      omega
    · rw [(ih (ws + p.1 * p.2) (tw + p.2)).2, (ih (0 + p.1 * p.2) (0 + p.2)).2]
      omega

/-- Size bound on the accumulated sums for in-range `u8` scores and `u16`
weights. -/
theorem cwa_sums_le (pairs : List (Nat × Nat))
    (hb : ∀ p ∈ pairs, p.1 ≤ 255 ∧ p.2 ≤ 65535) :
    (cwa_sums pairs 0 0).1 ≤ pairs.length * (255 * 65535)
    ∧ (cwa_sums pairs 0 0).2 ≤ pairs.length * 65535 := by
  induction pairs with
  | nil => simp [cwa_sums]
  | cons p rest ih =>
    rcases hb p (List.mem_cons_self p rest) with ⟨hp1, hp2⟩
    have hrest := ih (fun q hq => hb q (List.mem_cons_of_mem p hq))
    have hmul : p.1 * p.2 ≤ 255 * 65535 := Nat.mul_le_mul hp1 hp2
    simp only [cwa_sums, List.length_cons]
    constructor
    · rw [(cwa_sums_eq rest (0 + p.1 * p.2) (0 + p.2)).1]
      omega
    · rw [(cwa_sums_eq rest (0 + p.1 * p.2) (0 + p.2)).2]
      omega

/-- The accumulation loop never panics when the final sums fit in `u128`. -/
theorem cwa_sums_checked_eq (pairs : List (Nat × Nat)) (ws tw : Nat)
    (hws : ws + (cwa_sums pairs 0 0).1 ≤ U128MAX)
    (htw : tw + (cwa_sums pairs 0 0).2 ≤ U128MAX) :
    cwa_sums_checked pairs ws tw = some (cwa_sums pairs ws tw) := by
  induction pairs generalizing ws tw with
  | nil => rfl
  | cons p rest ih =>
    have hA : (cwa_sums (p :: rest) 0 0).1
        = 0 + p.1 * p.2 + (cwa_sums rest 0 0).1 := by
      simp only [cwa_sums]
      exact (cwa_sums_eq rest _ _).1
    have hB : (cwa_sums (p :: rest) 0 0).2
        = 0 + p.2 + (cwa_sums rest 0 0).2 := by
      simp only [cwa_sums]
      exact (cwa_sums_eq rest _ _).2
    rw [hA] at hws
    rw [hB] at htw
    have ht : p.1 * p.2 ≤ U128MAX := by omega
    have hwst : ws + p.1 * p.2 ≤ U128MAX := by omega
    have htwt : tw + p.2 ≤ U128MAX := by omega
    have hws2 : ws + p.1 * p.2 + (cwa_sums rest 0 0).1 ≤ U128MAX := by omega
    have htw2 : tw + p.2 + (cwa_sums rest 0 0).2 ≤ U128MAX := by omega
    simp only [cwa_sums_checked, cwa_sums]
    rw [show mul_u128 p.1 p.2 = some (p.1 * p.2) from by rw [mul_u128, if_pos ht]]
    simp only [Option.bind_eq_bind, Option.some_bind]
    rw [show add_u128 ws (p.1 * p.2) = some (ws + p.1 * p.2) from by
      rw [add_u128, if_pos hwst]]
    simp only [Option.some_bind]
    rw [show add_u128 tw p.2 = some (tw + p.2) from by rw [add_u128, if_pos htwt]]
    simp only [Option.some_bind]
    exact ih _ _ hws2 htw2

/-- C10: for every in-range slice and cap, the checked model returns `some`
(in particular the division by the total weight is guarded and never
panics), the result never exceeds the cap, and a zero total weight (e.g.
the empty slice) yields 0. -/
theorem ceiling_weighted_average_safe (pairs : List (Nat × Nat)) (cap : Nat)
    (hcap : cap ≤ 255)
    (helem : ∀ p ∈ pairs, p.1 ≤ 255 ∧ p.2 ≤ 65535)
    (hlen : pairs.length ≤ 2 ^ 64 - 1) :
    ceiling_weighted_average_checked pairs cap
      = some (ceiling_weighted_average pairs cap)
    ∧ ceiling_weighted_average pairs cap ≤ cap
    ∧ ((cwa_sums pairs 0 0).2 = 0 → ceiling_weighted_average pairs cap = 0) := by
  have hU : U128MAX = 2 ^ 128 - 1 := rfl
  obtain ⟨hA, hB⟩ := cwa_sums_le pairs helem
  have hchk := cwa_sums_checked_eq pairs 0 0 (by omega) (by omega)
  refine ⟨?_, ?_, ?_⟩
  · by_cases h0 : (cwa_sums pairs 0 0).2 = 0
    · simp [ceiling_weighted_average_checked, ceiling_weighted_average, hchk, h0]
    · have ht1 : add_u128 (cwa_sums pairs 0 0).1 (cwa_sums pairs 0 0).2
          = some ((cwa_sums pairs 0 0).1 + (cwa_sums pairs 0 0).2) := by
        rw [add_u128, if_pos (by omega)]
      have ht2 : sub_u128 ((cwa_sums pairs 0 0).1 + (cwa_sums pairs 0 0).2) 1
          = some ((cwa_sums pairs 0 0).1 + (cwa_sums pairs 0 0).2 - 1) := by
        rw [sub_u128, if_pos (by omega)]
      have ht3 : div_u128 ((cwa_sums pairs 0 0).1 + (cwa_sums pairs 0 0).2 - 1)
          ((cwa_sums pairs 0 0).2)
          = some (((cwa_sums pairs 0 0).1 + (cwa_sums pairs 0 0).2 - 1)
              / (cwa_sums pairs 0 0).2) := by
        rw [div_u128, if_neg h0]
      simp [ceiling_weighted_average_checked, ceiling_weighted_average, hchk,
        h0, ht1, ht2, ht3]
  · simp only [ceiling_weighted_average]
    split
    · exact Nat.zero_le _
    · exact min_le_right _ _
  · intro h0
    simp [ceiling_weighted_average, h0]

/-- Witness for C10 at a concrete two-element slice. -/
theorem ceiling_weighted_average_safe_witness :
    ceiling_weighted_average_checked [(10, 1), (20, 3)] 100
      = some (ceiling_weighted_average [(10, 1), (20, 3)] 100)
    ∧ ceiling_weighted_average [(10, 1), (20, 3)] 100 ≤ 100
    ∧ ((cwa_sums [(10, 1), (20, 3)] 0 0).2 = 0 →
        ceiling_weighted_average [(10, 1), (20, 3)] 100 = 0) :=
  ceiling_weighted_average_safe [(10, 1), (20, 3)] 100 (by decide) (by decide)
    (by decide)

end KaniSolana
